import Mathlib

/-!
Formal model of the job orchestration and live-output subsystem of the
DeepSeek-OCR-Web repository.

The frontend components (JobQueuePanel.tsx, HistoryPanel.tsx, App.tsx,
ConsoleOutput.tsx) are embedded directly from their TypeScript source.
The backend orchestrator (FastAPI service) is not part of the source tree;
where a property depends on it, the corresponding definition is modelled
from the specification document and marked as such in its doc comment.
-/

/-- Job status values, as enumerated in the spec (§3) and surfaced by the
backend: pending, running, finished, error, cancelled. -/
inductive Status
  | pending
  | running
  | finished
  | error
  | cancelled
deriving DecidableEq, Repr

/-- A status is terminal when it is finished, error or cancelled (spec §4.3). -/
def Status.isTerminal : Status → Bool
  | .finished => true
  | .error => true
  | .cancelled => true
  | _ => false

/-- Events that drive a job's lifecycle in the Job Runner model. -/
inductive RunnerEvent
  | pickup
  | exitOk
  | exitFail
  | cancelReq
deriving DecidableEq, Repr

/-- Modelled from the spec: the Job Runner's status transition function (§4.3).
The backend service implementing the runner is not in the source tree.
pickup moves a pending job to running when a worker slot frees; exitOk and
exitFail classify process exit of a running job; cancelReq moves a pending
job directly to cancelled (without starting a process) and a running job to
cancelled on process termination; cancel on a terminal job is a no-op, and
terminal states never transition further. -/
def applyEvent (e : RunnerEvent) (s : Status) : Status :=
  match e, s with
  | .pickup, .pending => .running
  | .exitOk, .running => .finished
  | .exitFail, .running => .error
  | .cancelReq, .pending => .cancelled
  | .cancelReq, .running => .cancelled
  | _, s => s

/-- The transition edges the spec's state machine admits (§4.3), including
the direct pending-to-cancelled edge taken by cancelling a pending job. -/
def specAllowed : Status → Status → Bool
  | .pending, .running => true
  | .pending, .cancelled => true
  | .running, .finished => true
  | .running, .error => true
  | .running, .cancelled => true
  | _, _ => false

/-- The transition edges admitted by the claim as stated: only
pending-to-running and running-to-a-terminal-state. -/
def claimedAllowed : Status → Status → Bool
  | .pending, .running => true
  | .running, .finished => true
  | .running, .error => true
  | .running, .cancelled => true
  | _, _ => false

/-- From App.tsx startPolling: the polling interval is cleared exactly when a
progress response has status success and a state among finished, error,
cancelled. -/
def shouldStopPolling (respStatus : String) (state : String) : Bool :=
  respStatus == "success" &&
    (state == "finished" || state == "error" || state == "cancelled")

/-- The three terminal state strings as the client sees them. -/
def isTerminalStr (state : String) : Bool :=
  state == "finished" || state == "error" || state == "cancelled"

/-- The icon rendering produced for a status: lucide icon name and colour
class, from JobQueuePanel.tsx getStatusIcon. -/
structure IconView where
  shape : String
  color : String
deriving DecidableEq, Repr

/-- From JobQueuePanel.tsx getStatusIcon: switch over the status string with
cases for running, finished, error, cancelled and a default branch; pending
is not a named case and reaches the default. -/
def getStatusIcon (status : String) : IconView :=
  if status = "running" then ⟨"Loader2", "text-blue-500"⟩
  else if status = "finished" then ⟨"CheckCircle2", "text-emerald-500"⟩
  else if status = "error" then ⟨"AlertCircle", "text-red-500"⟩
  else if status = "cancelled" then ⟨"XCircle", "text-gray-400"⟩
  else ⟨"AlertCircle", "text-gray-400"⟩

/-- The badge rendering produced for a status: label text and colour family,
from HistoryPanel.tsx getStatusBadge. -/
structure BadgeView where
  label : String
  color : String
deriving DecidableEq, Repr

/-- From HistoryPanel.tsx getStatusBadge: switch with cases for finished,
running, error, cancelled and a default branch that shows the raw status
string in a gray badge; pending reaches the default. -/
def getStatusBadge (status : String) : BadgeView :=
  if status = "finished" then ⟨"Completed", "emerald"⟩
  else if status = "running" then ⟨"Running", "blue"⟩
  else if status = "error" then ⟨"Error", "red"⟩
  else if status = "cancelled" then ⟨"Cancelled", "gray"⟩
  else ⟨status, "gray"⟩

/-- The job summary object returned by the history endpoint as consumed by
JobQueuePanel.tsx (interface Job). -/
structure Job where
  task_id : String
  filename : String
  original_filename : String
  timestamp : String
  runtime : Option Int
  status : String
  elapsed : Option Int
deriving DecidableEq, Repr

/-- What the job-queue dropdown shows when it is rendered: the running-jobs
section, the recent-jobs section, and whether the no-recent-jobs empty-state
branch is displayed. -/
structure QueuePanelView where
  runningJobs : List Job
  recentJobs : List Job
  showsEmptyState : Bool
deriving DecidableEq, Repr

/-- From JobQueuePanel.tsx: the component returns null when the job list is
empty; otherwise it renders the dropdown whose body splits jobs into running
and recent sections and shows the empty-state text only under the condition
that the job list length is zero. -/
def renderJobQueuePanel (jobs : List Job) : Option QueuePanelView :=
  if jobs.length = 0 then none
  else some
    { runningJobs := jobs.filter (fun j => j.status == "running")
      recentJobs := (jobs.filter (fun j => j.status != "running")).take 3
      showsEmptyState := jobs.length == 0 }

/-- A sample finished job used to instantiate universally quantified
theorems at concrete inputs. -/
def sampleJob : Job :=
  { task_id := "task-001"
    filename := "user_upload_20240101_120000_abc123.pdf"
    original_filename := "report.pdf"
    timestamp := "2024-01-01T12:00:00"
    runtime := some 42
    status := "finished"
    elapsed := none }

/-- A sample running job. -/
def sampleRunningJob : Job :=
  { task_id := "task-002"
    filename := "user_upload_20240102_090000_def456.png"
    original_filename := "scan.png"
    timestamp := "2024-01-02T09:00:00"
    runtime := none
    status := "running"
    elapsed := some 10 }

/-- A message received on the per-task console websocket, as parsed by the
onmessage handler in App.tsx: a type tag and a content payload. -/
structure WsMessage where
  type : String
  content : String
deriving DecidableEq, Repr

/-- From App.tsx handleStartParsing (ws.onmessage): a message whose type is
log appends its content at the end of the console message list; any other
message leaves the list unchanged. -/
def applyWsMessage (msgs : List String) (m : WsMessage) : List String :=
  if m.type == "log" then msgs ++ [m.content] else msgs

/-- The console message list after processing a sequence of websocket
messages in arrival order, starting from a given list. -/
def runWsMessages (init : List String) (ms : List WsMessage) : List String :=
  ms.foldl applyWsMessage init

/-- From ConsoleOutput.tsx: the component maps the message list in order to
display rows, row i showing line number i plus one and the message text. -/
def renderConsole (messages : List String) : List (Nat × String) :=
  messages.enum.map (fun p => (p.1 + 1, p.2))

/-- Modelled from the spec: the Log Broadcaster (§4.2) delivers to a
subscriber that joined after k lines had been appended every later line,
in append order, each as one websocket message of type log. The backend
broadcaster is not in the source tree. -/
def deliveredLog (lines : List String) (joinIdx : Nat) : List WsMessage :=
  (lines.drop joinIdx).map (fun c => ⟨"log", c⟩)

/-- Modelled from the spec: a persisted JobRecord (§3), restricted to the
fields the verified properties mention. The backend store is not in the
source tree. -/
structure JobRecord where
  id : String
  status : Status
  errorDetail : String
  resultLocation : Option String
deriving DecidableEq, Repr

/-- The error taxonomy of the orchestrator façade (spec §7), restricted to
the cases the verified properties mention. -/
inductive OrchError
  | NotFound
  | Conflict
  | NotReady
  | InvalidInput
deriving DecidableEq, Repr

/-- Modelled from the spec: the orchestrator's durable state, job records
plus result artifacts keyed by job id (§3, §6). -/
structure OrchStore where
  records : List JobRecord
  artifacts : List (String × String)
deriving DecidableEq, Repr

/-- Modelled from the spec: delete(jobId) (§4.4) is permitted only when the
job's status is terminal, removing the JobRecord and its result artifacts;
it fails with Conflict when the job is pending or running and with NotFound
when the id is unknown. The backend façade is not in the source tree. -/
def deleteJob (st : OrchStore) (id : String) : Except OrchError OrchStore :=
  match st.records.find? (fun r => r.id == id) with
  | none => Except.error OrchError.NotFound
  | some r =>
    if r.status.isTerminal then
      Except.ok
        { records := st.records.filter (fun r2 => r2.id ≠ id)
          artifacts := st.artifacts.filter (fun a => a.1 ≠ id) }
    else Except.error OrchError.Conflict

/-- The record summaries returned by the orchestrator's list operation. -/
def listJobs (st : OrchStore) : List JobRecord := st.records

/-- Modelled from the spec: fetchResultPackage(jobId, format) (§4.4) is
permitted only when the status is finished, returning a packaged bundle in
the requested format; it fails with NotReady otherwise and with NotFound
for an unknown id. The backend façade is not in the source tree. -/
def fetchResultPackage (st : OrchStore) (id : String) (format : String) :
    Except OrchError (String × Option String) :=
  match st.records.find? (fun r => r.id == id) with
  | none => Except.error OrchError.NotFound
  | some r =>
    if r.status = Status.finished then Except.ok (format, r.resultLocation)
    else Except.error OrchError.NotReady

/-- From HistoryPanel.tsx: the download dropdown is rendered only for a job
whose status is finished, offering exactly the three export formats mmd, md
and txt; no download control exists for any other status. -/
def downloadFormats (status : String) : List String :=
  if status = "finished" then ["mmd", "md", "txt"] else []

/-- The diagnostic recorded on a stale running record at startup. -/
def reconcileMsg : String := "prior running process was not recoverable after restart"

/-- Modelled from the spec: startup reconciliation of one record (§4.3): a
record found running at Runner startup, with no live process behind it, is
forced to error with a diagnostic; all other records are untouched. The
backend runner is not in the source tree. -/
def reconcileRecord (r : JobRecord) : JobRecord :=
  if r.status = Status.running then
    { r with status := Status.error, errorDetail := reconcileMsg }
  else r

/-- Runner startup applies reconciliation to every persisted record. -/
def runnerStartup (st : OrchStore) : OrchStore :=
  { st with records := st.records.map reconcileRecord }

/-- Modelled from the spec: submit(invocationSpec) (§4.4) appends a fresh
pending record for the given id. -/
def submitJob (st : OrchStore) (id : String) : OrchStore :=
  { st with records := st.records ++ [⟨id, Status.pending, "", none⟩] }

/-- Runner boot: startup reconciliation runs first, and only then are new
job submissions accepted, in order. -/
def runnerBoot (st : OrchStore) (newIds : List String) : OrchStore :=
  newIds.foldl submitJob (runnerStartup st)

/-- A sample stale store holding one running record and one finished record
with an artifact. -/
def sampleStaleStore : OrchStore :=
  { records :=
      [⟨"job-A", Status.running, "", none⟩,
       ⟨"job-B", Status.finished, "", some "results/job-B"⟩]
    artifacts := [("job-B", "results/job-B/output.zip")] }

/-- The job object consumed by HistoryPanel.tsx (interface HistoryJob). -/
structure HistoryJob where
  task_id : String
  filename : String
  original_filename : String
  timestamp : String
  runtime : Option Int
  status : String
  result_dir : String
deriving DecidableEq, Repr

/-- The sort options offered by HistoryPanel.tsx (type SortOption). -/
inductive SortOption
  | newest
  | oldest
  | status
  | runtime
deriving DecidableEq, Repr

/-- From HistoryPanel.tsx: the sort dropdown's initial state is newest. -/
def defaultSortBy : SortOption := SortOption.newest

/-- From HistoryPanel.tsx sortedJobs: the status priority map, running 0,
finished 1, error 2, cancelled 3, anything else 4. -/
def statusOrder (status : String) : Nat :=
  if status = "running" then 0
  else if status = "finished" then 1
  else if status = "error" then 2
  else if status = "cancelled" then 3
  else 4

/-- Ordering induced by the newest-first comparator: job a may precede job b
when b's parsed timestamp is at most a's. The timestamp parser stands for
the getTime conversion of the date strings. -/
def newestRel (pt : String → Int) (a b : HistoryJob) : Prop :=
  pt b.timestamp ≤ pt a.timestamp

/-- Ordering induced by the oldest-first comparator. -/
def oldestRel (pt : String → Int) (a b : HistoryJob) : Prop :=
  pt a.timestamp ≤ pt b.timestamp

/-- Ordering induced by the status-priority comparator. -/
def statusRel (a b : HistoryJob) : Prop :=
  statusOrder a.status ≤ statusOrder b.status

/-- Ordering induced by the runtime comparator: longest runtime first, with
a missing runtime treated as zero. -/
def runtimeRel (a b : HistoryJob) : Prop :=
  b.runtime.getD 0 ≤ a.runtime.getD 0

instance (pt : String → Int) : DecidableRel (newestRel pt) :=
  fun a b => inferInstanceAs (Decidable (pt b.timestamp ≤ pt a.timestamp))

instance (pt : String → Int) : DecidableRel (oldestRel pt) :=
  fun a b => inferInstanceAs (Decidable (pt a.timestamp ≤ pt b.timestamp))

instance : DecidableRel statusRel :=
  fun a b => inferInstanceAs (Decidable (statusOrder a.status ≤ statusOrder b.status))

instance : DecidableRel runtimeRel :=
  fun a b => inferInstanceAs (Decidable (b.runtime.getD 0 ≤ a.runtime.getD 0))

instance (pt : String → Int) : IsTotal HistoryJob (newestRel pt) :=
  ⟨fun a b => le_total (pt b.timestamp) (pt a.timestamp)⟩

instance (pt : String → Int) : IsTrans HistoryJob (newestRel pt) :=
  ⟨fun _ _ _ hab hbc => le_trans hbc hab⟩

instance (pt : String → Int) : IsTotal HistoryJob (oldestRel pt) :=
  ⟨fun a b => le_total (pt a.timestamp) (pt b.timestamp)⟩

instance (pt : String → Int) : IsTrans HistoryJob (oldestRel pt) :=
  ⟨fun _ _ _ hab hbc => le_trans hab hbc⟩

instance : IsTotal HistoryJob statusRel :=
  ⟨fun a b => le_total (statusOrder a.status) (statusOrder b.status)⟩

instance : IsTrans HistoryJob statusRel :=
  ⟨fun _ _ _ hab hbc => le_trans hab hbc⟩

instance : IsTotal HistoryJob runtimeRel :=
  ⟨fun a b => le_total (b.runtime.getD 0) (a.runtime.getD 0)⟩

instance : IsTrans HistoryJob runtimeRel :=
  ⟨fun _ _ _ hab hbc => le_trans hbc hab⟩

/-- From HistoryPanel.tsx sortedJobs: a copy of the job list sorted by the
selected comparator. The browser's sort is stable, as is the stable
insertion sort used here, so for these total preorders the embedded result
is the list the component renders. -/
def sortedJobs (pt : String → Int) (sortBy : SortOption) (jobs : List HistoryJob) :
    List HistoryJob :=
  match sortBy with
  | .newest => jobs.insertionSort (newestRel pt)
  | .oldest => jobs.insertionSort (oldestRel pt)
  | .status => jobs.insertionSort statusRel
  | .runtime => jobs.insertionSort runtimeRel

/-- The strict ordering asserted by the claim for the default sort: parsed
timestamps pairwise strictly descending. -/
def timesStrictlyDesc (pt : String → Int) (l : List HistoryJob) : Prop :=
  (l.map (fun j => pt j.timestamp)).Pairwise (fun a b => a > b)

instance (pt : String → Int) (l : List HistoryJob) :
    Decidable (timesStrictlyDesc pt l) :=
  inferInstanceAs (Decidable (List.Pairwise _ _))

/-- A concrete timestamp parser for witnesses: any function of the string is
enough because identical timestamp strings parse to identical times. -/
def demoParseTime (s : String) : Int := s.length

/-- Two history jobs submitted with the identical timestamp. -/
def hjTieA : HistoryJob :=
  ⟨"hA", "", "first.pdf", "2024-03-01T10:00:00", some 10, "finished", ""⟩

/-- A second history job sharing hjTieA's timestamp. -/
def hjTieB : HistoryJob :=
  ⟨"hB", "", "second.pdf", "2024-03-01T10:00:00", some 20, "error", ""⟩

/-- The client state of App.tsx that the mount-time restoration touches. -/
structure AppState where
  taskId : String
  isProcessing : Bool
  originalFilename : String
  elapsedTime : Int
  hasRestoredState : Bool
  pollingTask : Option String
deriving DecidableEq, Repr

/-- The state of App.tsx before any restoration. -/
def initialAppState : AppState :=
  { taskId := ""
    isProcessing := false
    originalFilename := ""
    elapsedTime := 0
    hasRestoredState := false
    pollingTask := none }

/-- From App.tsx checkRunningJobs: on mount, unless state was already
restored, the first job of the fetched history whose status is running is
adopted: its task id becomes the active task, processing is set, the
original filename is restored with fallbacks, elapsed time is recomputed
from the job's timestamp when one is present, the restored flag is set and
polling for that task starts. With no running job nothing changes. -/
def checkRunningJobs (pt : String → Int) (now : Int) (jobs : List Job)
    (s : AppState) : AppState :=
  if s.hasRestoredState then s
  else
    match jobs.find? (fun j => j.status == "running") with
    | none => s
    | some j =>
      { taskId := j.task_id
        isProcessing := true
        originalFilename :=
          if j.original_filename ≠ "" then j.original_filename
          else if j.filename ≠ "" then j.filename else ""
        elapsedTime :=
          if j.timestamp ≠ "" then (now - pt j.timestamp).fdiv 1000
          else s.elapsedTime
        hasRestoredState := true
        pollingTask := some j.task_id }

/-- The code points the trim operation removes at either end of a string:
the whitespace and line-terminator set of the scripting runtime. -/
def wsCodes : List Nat :=
  [9, 10, 11, 12, 13, 32, 160, 0x1680,
   0x2000, 0x2001, 0x2002, 0x2003, 0x2004, 0x2005, 0x2006, 0x2007,
   0x2008, 0x2009, 0x200A, 0x2028, 0x2029, 0x202F, 0x205F, 0x3000, 0xFEFF]

/-- Whether a character belongs to the trimmed whitespace set. -/
def isJsWhitespace (c : Char) : Bool :=
  decide (c.toNat ∈ wsCodes)

/-- The trim of a string: leading and trailing whitespace removed. -/
def jsTrim (s : String) : String :=
  String.mk (((s.data.dropWhile isJsWhitespace).reverse.dropWhile isJsWhitespace).reverse)

/-- Case-insensitive character match against a lowercase pattern character,
as the regex i flag gives for ASCII patterns. -/
def ciEq (c p : Char) : Bool :=
  c == p || (decide (65 ≤ c.toNat) && decide (c.toNat ≤ 90) && (c.toNat + 32 == p.toNat))

/-- Strip a lowercase pattern from the front of a character list, matching
case-insensitively; returns the remainder on success. -/
def stripPrefixCI : List Char → List Char → Option (List Char)
  | [], l => some l
  | _ :: _, [] => none
  | p :: ps, c :: cs => if ciEq c p then stripPrefixCI ps cs else none

/-- A hexadecimal digit under the regex i flag: 0 to 9, a to f, A to F. -/
def isHexDigitCI (c : Char) : Bool :=
  c.isDigit || (decide (97 ≤ c.toNat) && decide (c.toNat ≤ 102)) ||
    (decide (65 ≤ c.toNat) && decide (c.toNat ≤ 70))

/-- The line terminators that the regex dot metacharacter never matches. -/
def isLineTerminator (c : Char) : Bool :=
  c.toNat == 10 || c.toNat == 13 || c.toNat == 0x2028 || c.toNat == 0x2029

/-- From HistoryPanel.tsx getDisplayName: the upload-name regex, anchored at
both ends, matching user_upload_ then one or more digits, an underscore, one
or more digits, an underscore, one or more hex digits, a dot and a non-empty
extension captured to the end; the greedy runs make the split deterministic,
so this parser returns exactly the regex's captured extension. -/
def matchUploadPattern (s : String) : Option String :=
  match stripPrefixCI "user_upload_".data s.data with
  | none => none
  | some r1 =>
    let d1 := r1.takeWhile Char.isDigit
    let r2 := r1.dropWhile Char.isDigit
    if d1.isEmpty then none else
    match r2 with
    | '_' :: r3 =>
      let d2 := r3.takeWhile Char.isDigit
      let r4 := r3.dropWhile Char.isDigit
      if d2.isEmpty then none else
      match r4 with
      | '_' :: r5 =>
        let hx := r5.takeWhile isHexDigitCI
        let r6 := r5.dropWhile isHexDigitCI
        if hx.isEmpty then none else
        match r6 with
        | '.' :: rest =>
          if rest.isEmpty || rest.any isLineTerminator then none
          else some (String.mk rest)
        | _ => none
      | _ => none
    | _ => none

/-- From HistoryPanel.tsx getDisplayName: prefer the original filename when
its trim is non-empty; otherwise, when the stored filename's trim is
non-empty, return the pattern-derived Document name if the upload regex
matches and the stored filename itself if not; otherwise fall back to the
task id. -/
def getDisplayName (job : HistoryJob) : String :=
  if jsTrim job.original_filename ≠ "" then job.original_filename
  else if jsTrim job.filename ≠ "" then
    match matchUploadPattern job.filename with
    | some ext => "Document." ++ ext
    | none => job.filename
  else "Task " ++ job.task_id

/-- The fallback chain exactly as the claim states it: original filename
when non-empty after trimming; else the pattern-derived name when the stored
filename matches the upload pattern; else the stored filename when non-empty
(literally non-empty, no trimming); else the id-derived name. -/
def displayNameClaimed (job : HistoryJob) : String :=
  if jsTrim job.original_filename ≠ "" then job.original_filename
  else
    match matchUploadPattern job.filename with
    | some ext => "Document." ++ ext
    | none => if job.filename ≠ "" then job.filename else "Task " ++ job.task_id

/-- The claim's fallback chain amended only in its third step: the stored
filename is used when it is non-empty after trimming. -/
def displayNameAmended (job : HistoryJob) : String :=
  if jsTrim job.original_filename ≠ "" then job.original_filename
  else
    match matchUploadPattern job.filename with
    | some ext => "Document." ++ ext
    | none =>
      if jsTrim job.filename ≠ "" then job.filename else "Task " ++ job.task_id

/-- A history job whose stored filename is a single space and whose original
filename is empty. -/
def hjBlank : HistoryJob :=
  ⟨"t1", " ", "", "2024-01-01T00:00:00", none, "finished", ""⟩

/-- A history job carrying only an upload-pattern stored filename. -/
def hjUpload : HistoryJob :=
  ⟨"t2", "user_upload_20240101_120000_abc123.pdf", "", "2024-01-01T00:00:00",
   some 5, "finished", "res"⟩

/-- C1: amended state machine and polling property. Every transition the
modelled Job Runner performs lies on an edge of the spec's state machine
(pending to running, pending to cancelled via cancellation, running to
finished, error or cancelled); a terminal status is never overwritten by any
event; and the client's polling loop stops a task exactly when a successful
progress response carries one of the three terminal states. -/
theorem c1_transitions_amended :
    (∀ e s, applyEvent e s ≠ s → specAllowed s (applyEvent e s) = true) ∧
    (∀ e s, s.isTerminal = true → applyEvent e s = s) ∧
    (∀ st : String, shouldStopPolling "success" st = isTerminalStr st) := by
  refine ⟨?_, ?_, ?_⟩
  · intro e s
    cases e <;> cases s <;> simp [applyEvent, specAllowed]
  · intro e s h
    cases e <;> cases s <;> simp_all [applyEvent, Status.isTerminal]
  · intro st
    simp [shouldStopPolling, isTerminalStr]

/-- C1 witness: the amended theorem instantiated at concrete inputs. The
pickup event moves a pending job to running along a spec edge; a finished
job is unchanged by a cancel request; and a successful progress response in
state finished stops the polling loop. -/
theorem c1_transitions_witness :
    specAllowed Status.pending (applyEvent RunnerEvent.pickup Status.pending) = true ∧
    applyEvent RunnerEvent.cancelReq Status.finished = Status.finished ∧
    shouldStopPolling "success" "finished" = isTerminalStr "finished" :=
  ⟨c1_transitions_amended.1 RunnerEvent.pickup Status.pending (by decide),
   c1_transitions_amended.2.1 RunnerEvent.cancelReq Status.finished (by decide),
   c1_transitions_amended.2.2 "finished"⟩

/-- C1 counterexample: cancelling a pending job transitions it directly to
cancelled (spec §4.3), a genuine state change that is not among the paths
the claim admits, so the claimed transition diagram is missing an edge. -/
theorem c1_pending_cancel_counterexample :
    applyEvent RunnerEvent.cancelReq Status.pending = Status.cancelled ∧
    claimedAllowed Status.pending Status.cancelled = false ∧
    Status.cancelled ≠ Status.pending := by
  decide

/-- C9: amended rendering property. The five status values receive pairwise
distinct icon renderings and pairwise distinct badge renderings, but pending
is not differentiated from the default branch: its icon and badge are
produced by the fall-through case (the badge merely echoes the raw status
string). -/
theorem c9_distinct_rendering_amended :
    ((["pending", "running", "finished", "error", "cancelled"].map getStatusIcon).Pairwise (· ≠ ·)) ∧
    ((["pending", "running", "finished", "error", "cancelled"].map getStatusBadge).Pairwise (· ≠ ·)) ∧
    getStatusIcon "pending" = ⟨"AlertCircle", "text-gray-400"⟩ ∧
    getStatusBadge "pending" = ⟨"pending", "gray"⟩ := by
  refine ⟨?_, ?_, ?_, ?_⟩ <;> decide

/-- C9 counterexample: pending falls through to the undifferentiated default
case of getStatusIcon; its icon is identical to that of an arbitrary
unrecognised status string, refuting the claim that no status among the five
falls through to a default case. -/
theorem c9_pending_default_counterexample :
    getStatusIcon "pending" = getStatusIcon "no-such-status" ∧
    ("pending" : String) ≠ "no-such-status" := by
  refine ⟨?_, ?_⟩ <;> decide

/-- C10: when the fetched job list is empty the JobQueuePanel component
renders nothing at all, and every rendering of the dropdown therefore
happens with at least one job present and never displays the no-recent-jobs
empty-state branch. -/
theorem c10_empty_render :
    renderJobQueuePanel [] = none ∧
    (∀ jobs v, renderJobQueuePanel jobs = some v →
      jobs ≠ [] ∧ v.showsEmptyState = false) := by
  constructor
  · rfl
  · intro jobs v h
    cases jobs with
    | nil => simp [renderJobQueuePanel] at h
    | cons j rest =>
      refine ⟨by simp, ?_⟩
      simp only [renderJobQueuePanel, List.length_cons] at h
      rw [if_neg (by omega)] at h
      cases h
      simp

/-- C10 witness: the theorem instantiated at a one-element job list, whose
rendered dropdown does not display the empty-state branch. -/
theorem c10_empty_render_witness :
    [sampleJob] ≠ [] ∧
    (QueuePanelView.mk [] [sampleJob] false).showsEmptyState = false :=
  c10_empty_render.2 [sampleJob] (QueuePanelView.mk [] [sampleJob] false) (by rfl)

/-- Processing a websocket message sequence from any starting list appends
exactly the contents of the messages of type log, in arrival order. -/
theorem runWsMessages_eq_append (ms : List WsMessage) :
    ∀ init, runWsMessages init ms =
      init ++ (ms.filter (fun m => m.type == "log")).map (fun m => m.content) := by
  induction ms with
  | nil => intro init; simp [runWsMessages]
  | cons m rest ih =>
    intro init
    by_cases h : m.type = "log"
    · simpa [runWsMessages, applyWsMessage, h, List.filter_cons] using ih (init ++ [m.content])
    · simpa [runWsMessages, applyWsMessage, h, List.filter_cons] using ih init

/-- C2: log lines are displayed in append order without gaps or duplicates
for a live subscriber. Every websocket message of type log is appended
exactly once at the end of the console list, so after processing a message
sequence the list equals the contents of its log messages in arrival order;
the console component displays that list unchanged and in order; and a
subscriber joining after k appended lines sees exactly every later line of
the job's log, in append order. -/
theorem c2_log_append_order :
    (∀ ms : List WsMessage,
      runWsMessages [] ms =
        (ms.filter (fun m => m.type == "log")).map (fun m => m.content)) ∧
    (∀ messages : List String, (renderConsole messages).map Prod.snd = messages) ∧
    (∀ lines : List String, ∀ k : Nat,
      runWsMessages [] (deliveredLog lines k) = lines.drop k) := by
  refine ⟨?_, ?_, ?_⟩
  · intro ms
    simpa using runWsMessages_eq_append ms []
  · intro messages
    simp [renderConsole, List.map_map]
    exact List.enum_map_snd messages
  · intro lines k
    have hfil : (deliveredLog lines k).filter (fun m => m.type == "log") =
        deliveredLog lines k := by
      rw [List.filter_eq_self]
      intro m hm
      rcases List.mem_map.mp hm with ⟨c, _, rfl⟩
      rfl
    have h := runWsMessages_eq_append (deliveredLog lines k) []
    rw [hfil] at h
    have hcomp : ((fun m : WsMessage => m.content) ∘
        fun c => ({ type := "log", content := c } : WsMessage)) = id := rfl
    simpa [deliveredLog, List.map_map, hcomp] using h

/-- New submissions accepted after boot never remove a persisted record. -/
theorem mem_foldl_submitJob (ids : List String) :
    ∀ st : OrchStore, ∀ r ∈ st.records, r ∈ (ids.foldl submitJob st).records := by
  induction ids with
  | nil => intro st r hr; simpa using hr
  | cons i rest ih =>
    intro st r hr
    simp only [List.foldl_cons]
    exact ih (submitJob st i) r (by simp [submitJob, hr])

/-- C3: startup reconciliation. Every persisted record found running at
Runner startup is forced to error with a non-empty diagnostic while keeping
its id; no record of the reconciled store remains running; and because boot
performs reconciliation before accepting any new submission, the reconciled
record is present however many new jobs are accepted afterwards. -/
theorem c3_startup_reconciliation :
    (∀ st : OrchStore, ∀ r ∈ st.records, r.status = Status.running →
      reconcileRecord r ∈ (runnerStartup st).records ∧
      (reconcileRecord r).id = r.id ∧
      (reconcileRecord r).status = Status.error ∧
      (reconcileRecord r).errorDetail ≠ "") ∧
    (∀ st : OrchStore, ∀ r2 ∈ (runnerStartup st).records, r2.status ≠ Status.running) ∧
    (∀ st : OrchStore, ∀ ids : List String, ∀ r ∈ st.records, r.status = Status.running →
      reconcileRecord r ∈ (runnerBoot st ids).records) := by
  refine ⟨?_, ?_, ?_⟩
  · intro st r hr hrun
    refine ⟨List.mem_map_of_mem reconcileRecord hr, ?_, ?_, ?_⟩ <;>
      simp [reconcileRecord, hrun, reconcileMsg]
  · intro st r2 hr2
    rcases List.mem_map.mp hr2 with ⟨x, _, rfl⟩
    by_cases hx : x.status = Status.running
    · simp [reconcileRecord, hx]
    · simp [reconcileRecord, hx]
  · intro st ids r hr hrun
    exact mem_foldl_submitJob ids (runnerStartup st) (reconcileRecord r)
      (List.mem_map_of_mem reconcileRecord hr)

/-- C3 witness: the reconciliation theorem at a concrete stale store. The
record job-A, persisted as running, is reconciled to error with a non-empty
diagnostic, and survives a boot that accepts one new job afterwards. -/
theorem c3_startup_reconciliation_witness :
    (reconcileRecord ⟨"job-A", Status.running, "", none⟩ ∈
      (runnerStartup sampleStaleStore).records ∧
     (reconcileRecord ⟨"job-A", Status.running, "", none⟩).id = "job-A" ∧
     (reconcileRecord ⟨"job-A", Status.running, "", none⟩).status = Status.error ∧
     (reconcileRecord ⟨"job-A", Status.running, "", none⟩).errorDetail ≠ "") ∧
    reconcileRecord ⟨"job-A", Status.running, "", none⟩ ∈
      (runnerBoot sampleStaleStore ["job-C"]).records :=
  ⟨c3_startup_reconciliation.1 sampleStaleStore ⟨"job-A", Status.running, "", none⟩
      (by decide) rfl,
   c3_startup_reconciliation.2.2 sampleStaleStore ["job-C"]
      ⟨"job-A", Status.running, "", none⟩ (by decide) rfl⟩

/-- C4: delete succeeds only on terminal jobs. For a job present in the
store, if its status is terminal the delete operation returns a store in
which neither the record nor any artifact of that id remains; if the job is
pending or running, delete fails with Conflict and the record is still
present in the list results. -/
theorem c4_delete_terminal_only :
    ∀ st id r, st.records.find? (fun x => x.id == id) = some r →
      (r.status.isTerminal = true →
        ∃ st2, deleteJob st id = Except.ok st2 ∧
          (∀ r2 ∈ listJobs st2, r2.id ≠ id) ∧
          (∀ a ∈ st2.artifacts, a.1 ≠ id)) ∧
      ((r.status = Status.pending ∨ r.status = Status.running) →
        deleteJob st id = Except.error OrchError.Conflict ∧
        ∃ r2 ∈ listJobs st, r2.id = id) := by
  intro st id r hfind
  have hmem : r ∈ st.records := List.mem_of_find?_eq_some hfind
  have hid : r.id = id := by
    have := List.find?_some hfind
    exact eq_of_beq this
  constructor
  · intro hterm
    refine ⟨{ records := st.records.filter (fun r2 => r2.id ≠ id)
              artifacts := st.artifacts.filter (fun a => a.1 ≠ id) }, ?_, ?_, ?_⟩
    · simp [deleteJob, hfind, hterm]
    · intro r2 hr2
      simp only [listJobs, List.mem_filter] at hr2
      simpa using hr2.2
    · intro a ha
      simp only [List.mem_filter] at ha
      simpa using ha.2
  · intro hpr
    have hterm : r.status.isTerminal = false := by
      rcases hpr with h | h <;> simp [h, Status.isTerminal]
    refine ⟨?_, r, hmem, hid⟩
    simp [deleteJob, hfind, hterm]

/-- C4 witness: at the concrete sample store, deleting the finished job
job-B succeeds and removes its record and artifact, while deleting the
running job job-A fails with Conflict and the record stays listed. -/
theorem c4_delete_terminal_only_witness :
    (∃ st2, deleteJob sampleStaleStore "job-B" = Except.ok st2 ∧
      (∀ r2 ∈ listJobs st2, r2.id ≠ "job-B") ∧
      (∀ a ∈ st2.artifacts, a.1 ≠ "job-B")) ∧
    (deleteJob sampleStaleStore "job-A" = Except.error OrchError.Conflict ∧
      ∃ r2 ∈ listJobs sampleStaleStore, r2.id = "job-A") :=
  ⟨(c4_delete_terminal_only sampleStaleStore "job-B"
      ⟨"job-B", Status.finished, "", some "results/job-B"⟩ (by decide)).1 (by decide),
   (c4_delete_terminal_only sampleStaleStore "job-A"
      ⟨"job-A", Status.running, "", none⟩ (by decide)).2 (Or.inr rfl)⟩

/-- C5: result packages only for finished jobs. For a job present in the
store, the package request succeeds exactly when the status is finished and
fails with NotReady in every other state; the client offers the download
control only for a finished job, with exactly the three distinct textual
formats mmd, md and txt of the same result. -/
theorem c5_result_package_finished_only :
    ∀ st id r fmt, st.records.find? (fun x => x.id == id) = some r →
      (r.status = Status.finished →
        fetchResultPackage st id fmt = Except.ok (fmt, r.resultLocation)) ∧
      (r.status ≠ Status.finished →
        fetchResultPackage st id fmt = Except.error OrchError.NotReady) ∧
      downloadFormats "finished" = ["mmd", "md", "txt"] ∧
      (["mmd", "md", "txt"] : List String).Nodup ∧
      (∀ s, s ≠ "finished" → downloadFormats s = []) := by
  intro st id r fmt hfind
  refine ⟨?_, ?_, by decide, by decide, ?_⟩
  · intro hfin
    simp only [fetchResultPackage, hfind, hfin, if_true]
  · intro hnot
    simp only [fetchResultPackage, hfind, if_neg hnot]
  · intro s hs
    simp [downloadFormats, hs]

/-- C5 witness: at the concrete sample store, the finished job job-B yields
a result package while the running job job-A yields NotReady, and only the
finished status offers the three download formats. -/
theorem c5_result_package_finished_only_witness :
    fetchResultPackage sampleStaleStore "job-B" "mmd" =
      Except.ok ("mmd", some "results/job-B") ∧
    fetchResultPackage sampleStaleStore "job-A" "mmd" =
      Except.error OrchError.NotReady ∧
    downloadFormats "running" = [] :=
  ⟨(c5_result_package_finished_only sampleStaleStore "job-B"
      ⟨"job-B", Status.finished, "", some "results/job-B"⟩ "mmd" (by decide)).1 rfl,
   (c5_result_package_finished_only sampleStaleStore "job-A"
      ⟨"job-A", Status.running, "", none⟩ "mmd" (by decide)).2.1 (by decide),
   (c5_result_package_finished_only sampleStaleStore "job-A"
      ⟨"job-A", Status.running, "", none⟩ "mmd" (by decide)).2.2.2.2 "running" (by decide)⟩

/-- Only the running status has status priority zero. -/
theorem statusOrder_eq_zero {s : String} (h : statusOrder s = 0) : s = "running" := by
  by_cases hr : s = "running"
  · exact hr
  · exfalso
    simp only [statusOrder, hr, if_false] at h
    split_ifs at h

/-- C6: amended sort property. Each sort option produces a permutation of
the fetched job list ordered pairwise by its comparator: newest first
(timestamps non-increasing, the default option), oldest first, status
priority, and runtime descending with missing runtimes as zero; under the
status sort every running job precedes every job of any other status. -/
theorem c6_sortedJobs_amended :
    ∀ (pt : String → Int) (jobs : List HistoryJob),
      defaultSortBy = SortOption.newest ∧
      (sortedJobs pt SortOption.newest jobs).Perm jobs ∧
      (sortedJobs pt SortOption.newest jobs).Pairwise (newestRel pt) ∧
      (sortedJobs pt SortOption.oldest jobs).Perm jobs ∧
      (sortedJobs pt SortOption.oldest jobs).Pairwise (oldestRel pt) ∧
      (sortedJobs pt SortOption.status jobs).Perm jobs ∧
      (sortedJobs pt SortOption.status jobs).Pairwise statusRel ∧
      (sortedJobs pt SortOption.status jobs).Pairwise
        (fun a b => b.status = "running" → a.status = "running") ∧
      (sortedJobs pt SortOption.runtime jobs).Perm jobs ∧
      (sortedJobs pt SortOption.runtime jobs).Pairwise runtimeRel := by
  intro pt jobs
  refine ⟨rfl, List.perm_insertionSort _ jobs, List.sorted_insertionSort _ jobs,
    List.perm_insertionSort _ jobs, List.sorted_insertionSort _ jobs,
    List.perm_insertionSort _ jobs, List.sorted_insertionSort _ jobs, ?_,
    List.perm_insertionSort _ jobs, List.sorted_insertionSort _ jobs⟩
  refine List.Pairwise.imp ?_ (List.sorted_insertionSort statusRel jobs)
  intro a b hab hb
  have hb0 : statusOrder b.status = 0 := by simp [statusOrder, hb]
  have ha0 : statusOrder a.status = 0 := by
    have := hab
    unfold statusRel at this
    omega
  exact statusOrder_eq_zero ha0

/-- C6 witness: the amended theorem instantiated at a concrete parser and
job list: the default option is newest and the status sort permutes the
list. -/
theorem c6_sortedJobs_witness :
    defaultSortBy = SortOption.newest ∧
    (sortedJobs demoParseTime SortOption.status [hjTieA, hjTieB]).Perm [hjTieA, hjTieB] :=
  ⟨(c6_sortedJobs_amended demoParseTime [hjTieA, hjTieB]).1,
   (c6_sortedJobs_amended demoParseTime [hjTieA, hjTieB]).2.2.2.2.2.1⟩

/-- C6 counterexample: two jobs submitted with the identical timestamp.
Whatever parser converts the equal timestamp strings, the default sort
yields equal adjacent times, so its output timestamps are not strictly
descending as the claim asserts. -/
theorem c6_equal_timestamps_counterexample :
    hjTieA.timestamp = hjTieB.timestamp ∧
    ¬ timesStrictlyDesc demoParseTime
        (sortedJobs demoParseTime SortOption.newest [hjTieA, hjTieB]) := by
  refine ⟨rfl, ?_⟩
  decide

/-- C7: mount-time restoration. If state was already restored, a further
check changes nothing, so restoration happens at most once per mount; if no
fetched job is running, the client state is left unchanged; and if the
fetched history contains a running job, the first such job's task id is
adopted as the active task, the client marks itself processing, polling for
that task starts, the restored flag is set, and when the job carries a
timestamp the elapsed time is recomputed from it. -/
theorem c7_restore_running :
    ∀ (pt : String → Int) (now : Int) (jobs : List Job) (s : AppState) (j : Job),
      (s.hasRestoredState = true → checkRunningJobs pt now jobs s = s) ∧
      (s.hasRestoredState = false →
        jobs.find? (fun x => x.status == "running") = none →
        checkRunningJobs pt now jobs s = s) ∧
      (s.hasRestoredState = false →
        jobs.find? (fun x => x.status == "running") = some j →
        j.status = "running" ∧
        (checkRunningJobs pt now jobs s).taskId = j.task_id ∧
        (checkRunningJobs pt now jobs s).isProcessing = true ∧
        (checkRunningJobs pt now jobs s).pollingTask = some j.task_id ∧
        (checkRunningJobs pt now jobs s).hasRestoredState = true ∧
        (j.timestamp ≠ "" →
          (checkRunningJobs pt now jobs s).elapsedTime =
            (now - pt j.timestamp).fdiv 1000) ∧
        (∀ (pt2 : String → Int) (now2 : Int) (jobs2 : List Job),
          checkRunningJobs pt2 now2 jobs2 (checkRunningJobs pt now jobs s) =
            checkRunningJobs pt now jobs s)) := by
  intro pt now jobs s j
  refine ⟨?_, ?_, ?_⟩
  · intro hs
    simp [checkRunningJobs, hs]
  · intro hs hn
    simp [checkRunningJobs, hs, hn]
  · intro hs hf
    have hrun : j.status = "running" := by
      have hp := List.find?_some hf
      exact eq_of_beq hp
    refine ⟨hrun, ?_, ?_, ?_, ?_, ?_, ?_⟩
    · simp [checkRunningJobs, hs, hf]
    · simp [checkRunningJobs, hs, hf]
    · simp [checkRunningJobs, hs, hf]
    · simp [checkRunningJobs, hs, hf]
    · intro ht
      simp [checkRunningJobs, hs, hf, ht]
    · intro pt2 now2 jobs2
      simp [checkRunningJobs, hs, hf]

/-- C7 witness: at a concrete history holding one finished and one running
job, mounting from the initial state adopts the running job's task id and
marks the client processing. -/
theorem c7_restore_running_witness :
    (checkRunningJobs demoParseTime 1700000000 [sampleJob, sampleRunningJob]
        initialAppState).taskId = sampleRunningJob.task_id ∧
    (checkRunningJobs demoParseTime 1700000000 [sampleJob, sampleRunningJob]
        initialAppState).isProcessing = true :=
  ⟨((c7_restore_running demoParseTime 1700000000 [sampleJob, sampleRunningJob]
      initialAppState sampleRunningJob).2.2 rfl (by decide)).2.1,
   ((c7_restore_running demoParseTime 1700000000 [sampleJob, sampleRunningJob]
      initialAppState sampleRunningJob).2.2 rfl (by decide)).2.2.1⟩

/-- A whitespace character never matches the letter u, even
case-insensitively. -/
theorem ws_ciEq_u {c : Char} (h : isJsWhitespace c = true) : ciEq c 'u' = false := by
  have hc : c.toNat ∈ wsCodes := of_decide_eq_true h
  have hbound : c.toNat ≠ 117 ∧ ¬(65 ≤ c.toNat ∧ c.toNat ≤ 90) := by
    simp only [wsCodes, List.mem_cons, List.not_mem_nil, or_false] at hc
    omega
  have h1 : (c == 'u') = false := by
    apply beq_eq_false_iff_ne.mpr
    intro he
    subst he
    exact hbound.1 (by decide)
  have h2 : (decide (65 ≤ c.toNat) && decide (c.toNat ≤ 90) &&
      (c.toNat + 32 == Char.toNat 'u')) = false := by
    have hor : ¬(65 ≤ c.toNat) ∨ ¬(c.toNat ≤ 90) := by omega
    rcases hor with h3 | h3
    · simp [decide_eq_false h3]
    · simp [decide_eq_false h3]
  simp only [ciEq, h1, h2, Bool.or_self, Bool.or_false]

/-- If the trim of a string is empty, every character of the string is
whitespace. -/
theorem jsTrim_eq_empty_all_ws {s : String} (h : jsTrim s = "") :
    ∀ c ∈ s.data, isJsWhitespace c = true := by
  intro c hc
  have hlist :
      ((s.data.dropWhile isJsWhitespace).reverse.dropWhile isJsWhitespace).reverse = [] := by
    have hd := congrArg String.data h
    simpa [jsTrim] using hd
  rw [List.reverse_eq_nil_iff] at hlist
  have hall2 : ∀ x ∈ s.data.dropWhile isJsWhitespace, isJsWhitespace x = true := by
    intro x hx
    exact List.dropWhile_eq_nil_iff.mp hlist x (List.mem_reverse.mpr hx)
  have hsplit : s.data =
      s.data.takeWhile isJsWhitespace ++ s.data.dropWhile isJsWhitespace :=
    (List.takeWhile_append_dropWhile isJsWhitespace s.data).symm
  rw [hsplit] at hc
  rcases List.mem_append.mp hc with h1 | h1
  · exact List.mem_takeWhile_imp h1
  · exact hall2 c h1

/-- A string whose trim is empty never matches the upload pattern: the
pattern's first character is the letter u, which no whitespace character
matches. -/
theorem jsTrim_empty_no_match {s : String} (h : jsTrim s = "") :
    matchUploadPattern s = none := by
  cases hs : s.data with
  | nil =>
    have h0 : stripPrefixCI "user_upload_".data ([] : List Char) = none := by decide
    simp [matchUploadPattern, hs, h0]
  | cons c cs =>
    have hwc : isJsWhitespace c = true := by
      apply jsTrim_eq_empty_all_ws h
      rw [hs]
      exact List.mem_cons_self c cs
    have hu : "user_upload_".data = 'u' :: "ser_upload_".data := by decide
    have h0 : stripPrefixCI "user_upload_".data (c :: cs) = none := by
      rw [hu]
      simp [stripPrefixCI, ws_ciEq_u hwc]
    simp [matchUploadPattern, hs, h0]

/-- C8: amended display-name property. For every history job the rendered
display name equals the claim's fallback chain with its third step read as
non-empty after trimming: the original filename when its trim is non-empty;
else the pattern-derived Document name when the stored filename matches the
upload pattern; else the stored filename when its trim is non-empty; else
the id-derived Task name. -/
theorem c8_displayName_amended :
    ∀ job : HistoryJob, getDisplayName job = displayNameAmended job := by
  intro job
  by_cases h1 : jsTrim job.original_filename = ""
  · by_cases h2 : jsTrim job.filename = ""
    · simp [getDisplayName, displayNameAmended, h1, h2, jsTrim_empty_no_match h2]
    · cases hm : matchUploadPattern job.filename with
      | none => simp [getDisplayName, displayNameAmended, h1, h2, hm]
      | some ext => simp [getDisplayName, displayNameAmended, h1, h2, hm]
  · simp [getDisplayName, displayNameAmended, h1]

/-- C8 counterexample: a job whose original filename is empty and whose
stored filename is a single space. The component falls back to the
id-derived name, while the claim's chain, reading non-empty literally,
returns the raw space. -/
theorem c8_blank_filename_counterexample :
    getDisplayName hjBlank = "Task t1" ∧
    displayNameClaimed hjBlank = " " ∧
    ("Task t1" : String) ≠ " " := by
  refine ⟨?_, ?_, ?_⟩ <;> decide
